import Mathlib

/-!
Verification development for `models.py` of the class-balanced-experts
repository.

The file shallowly embeds the three components of `models.py` that the
specification describes:

* `CalibrateExperts` — the calibration module (`models.py`, lines 5–53).
  A batch of raw scores is a `List (List ℝ)` (one inner list per example).
  Tensor operations that can raise a shape error in the underlying tensor
  runtime (broadcasted elementwise arithmetic, advanced-indexing
  assignment) are embedded as `Option`-valued operations that return
  `none` exactly when the runtime would raise; the forward pass is
  therefore `Option`-valued.
* `DotProduct_Classifier` — the linear classifier head (lines 55–68).
* `ResNet` and the two factory functions (lines 148–237); the
  convolutional backbone is standard library-provided numerics and is
  abstracted as an opaque-to-the-theorem function argument, while the
  configuration flags (`use_fc`, `use_dropout`) and the tail of the
  forward pass that they control are embedded exactly.

Real-valued arithmetic is modelled exactly over `ℝ` (the float
computations of the source are exact-real here); `F.softmax` and
`torch.log` are embedded with `Real.exp` / `Real.log`.
-/

/-- Python slice `x[:, a:b]` applied to one row: drop the first `a`
entries, then keep at most `b - a` (Python slicing clamps, it never
fails). -/
def sliceRow (row : List ℝ) (r : Nat × Nat) : List ℝ :=
  (row.drop r.1).take (r.2 - r.1)

/-- Embedding of `F.softmax(v, dim=1)` on one row: each entry becomes
`exp vᵢ / Σⱼ exp vⱼ`. -/
noncomputable def softmaxRow (v : List ℝ) : List ℝ :=
  v.map (fun a => Real.exp a / (v.map Real.exp).sum)

/-- Unchecked in-place scatter `y[m] = v` on one row: walk the
index/value pairs in order and `List.set` each one (later writes win,
out-of-range writes are dropped by `List.set`).  The shape checks the
tensor runtime performs before this assignment live in
`checkedScatter`. -/
def scatterRow {α : Type} (y : List α) (m : List Nat) (v : List α) : List α :=
  (m.zip v).foldl (fun acc p => acc.set p.1 p.2) y

/-- Embedding of the advanced-indexing assignment `y[:, mask] = vals` on
one row.  The runtime raises unless every index is in bounds and the
value row either matches the mask length or broadcasts from length 1;
otherwise the assignment is performed in index order. -/
def checkedScatter {α : Type} [Inhabited α] (y : List α) (m : List Nat) (v : List α) :
    Option (List α) :=
  if (∀ i ∈ m, i < y.length) ∧ (m.length = v.length ∨ v.length = 1) then
    some (scatterRow y m (if m.length = v.length then v else List.replicate m.length v.headI))
  else none

/-- Embedding of a broadcasted elementwise binary operation between a
`(1, k)` parameter row and a `(n, l)` batch, restricted to one row of
the batch: the runtime accepts `k = l` (pointwise), or broadcasts when
either last dimension is `1`, and raises otherwise. -/
def bcast (op : ℝ → ℝ → ℝ) (a b : List ℝ) : Option (List ℝ) :=
  if a.length = b.length then some (List.zipWith op a b)
  else if b.length = 1 then some (a.map (fun t => op t b.headI))
  else if a.length = 1 then some (b.map (fun t => op a.headI t))
  else none

/-- Row-by-row traversal of a batch: the batched tensor computation
succeeds exactly when it succeeds on every row. -/
def seqRows (f : List ℝ → Option (List ℝ)) : List (List ℝ) → Option (List (List ℝ))
  | [] => some []
  | row :: rest =>
    match f row, seqRows f rest with
    | some r, some rs => some (r :: rs)
    | _, _ => none

/-- Lines 50–51 of `models.py`: `y = y / y.sum(dim=1).unsqueeze(1)`
followed by `y = torch.log(y)`, on one row. -/
noncomputable def normLogRow (y : List ℝ) : List ℝ :=
  (y.map (fun a => a / y.sum)).map Real.log

/-- State of a `CalibrateExperts` module: the dataset identifier, the
three band ranges fixed by `__init__`, the six learned parameter rows
(per-band temperature and bias) and the three class-index masks. -/
structure CalibrateExperts where
  dataset : String
  manyshotRange : Nat × Nat
  mediumshotRange : Nat × Nat
  fewshotRange : Nat × Nat
  manyshotTemp : List ℝ
  mediumshotTemp : List ℝ
  fewshotTemp : List ℝ
  manyshotBias : List ℝ
  mediumshotBias : List ℝ
  fewshotBias : List ℝ
  manyshotClassMask : List Nat
  mediumshotClassMask : List Nat
  fewshotClassMask : List Nat

/-- `CalibrateExperts.__init__` (`models.py`, lines 7–31): the ranges
are `(0,392),(392,866),(866,1003)` when `dataset == 'imagenet'` and
`(0,133),(133,296),(296,368)` otherwise (note: *any* other string takes
the `else` branch); temperatures and biases are `torch.ones` rows of
the band widths; the masks are stored as given. -/
noncomputable def CalibrateExperts.init (dataset : String)
    (manyshotClassMask mediumshotClassMask fewshotClassMask : List Nat) :
    CalibrateExperts :=
  let manyshotRange := if dataset = "imagenet" then (0, 392) else (0, 133)
  let mediumshotRange := if dataset = "imagenet" then (392, 866) else (133, 296)
  let fewshotRange := if dataset = "imagenet" then (866, 1003) else (296, 368)
  { dataset := dataset
    manyshotRange := manyshotRange
    mediumshotRange := mediumshotRange
    fewshotRange := fewshotRange
    manyshotTemp := List.replicate (manyshotRange.2 - manyshotRange.1) (1 : ℝ)
    mediumshotTemp := List.replicate (mediumshotRange.2 - mediumshotRange.1) (1 : ℝ)
    fewshotTemp := List.replicate (fewshotRange.2 - fewshotRange.1) (1 : ℝ)
    manyshotBias := List.replicate (manyshotRange.2 - manyshotRange.1) (1 : ℝ)
    mediumshotBias := List.replicate (mediumshotRange.2 - mediumshotRange.1) (1 : ℝ)
    fewshotBias := List.replicate (fewshotRange.2 - fewshotRange.1) (1 : ℝ)
    manyshotClassMask := manyshotClassMask
    mediumshotClassMask := mediumshotClassMask
    fewshotClassMask := fewshotClassMask }

/-- One of lines 41–43 of `models.py` on one row:
`F.softmax((temp * logits) + bias, dim=1)[:, :-1]`, with the two
broadcasted elementwise operations checked by the runtime. -/
noncomputable def bandStep (temp bias logits : List ℝ) : Option (List ℝ) :=
  (bcast (· * ·) temp logits).bind fun s =>
  (bcast (· + ·) s bias).bind fun z =>
  some (softmaxRow z).dropLast

/-- `CalibrateExperts.forward` (`models.py`, lines 33–53) on one row of
the batch: slice the three bands (lines 36–38); per band, temperature
scaling, bias and softmax followed by dropping the last (reject) column
(lines 41–43, `bandStep`); zero-initialize a row of length
`x.shape[1] - 3` (line 46); scatter the three truncated distributions
through the class masks (lines 47–49); renormalize and take the log
(lines 50–51).  Every runtime-checked tensor operation is threaded
through `Option`. -/
noncomputable def CalibrateExperts.forwardRow (m : CalibrateExperts) (row : List ℝ) :
    Option (List ℝ) :=
  (bandStep m.manyshotTemp m.manyshotBias (sliceRow row m.manyshotRange)).bind
    fun manyshotProbs =>
  (bandStep m.mediumshotTemp m.mediumshotBias (sliceRow row m.mediumshotRange)).bind
    fun mediumshotProbs =>
  (bandStep m.fewshotTemp m.fewshotBias (sliceRow row m.fewshotRange)).bind
    fun fewshotProbs =>
  (checkedScatter (List.replicate (row.length - 3) (0 : ℝ))
      m.manyshotClassMask manyshotProbs).bind fun y1 =>
  (checkedScatter y1 m.mediumshotClassMask mediumshotProbs).bind fun y2 =>
  (checkedScatter y2 m.fewshotClassMask fewshotProbs).bind fun y3 =>
  some (normLogRow y3)

/-- The state-passing reading of the method `CalibrateExperts.forward`:
it returns the batched output together with the module state after the
call.  The method body (lines 33–53) reads `self.*` fields but contains
no assignment to `self`, so the threaded state is the input state. -/
noncomputable def CalibrateExperts.forwardS (m : CalibrateExperts) (x : List (List ℝ)) :
    Option (List (List ℝ)) × CalibrateExperts :=
  (seqRows (fun row => m.forwardRow row) x, m)

/-- The value returned by `CalibrateExperts.forward` on a batch. -/
noncomputable def CalibrateExperts.forward (m : CalibrateExperts) (x : List (List ℝ)) :
    Option (List (List ℝ)) :=
  (m.forwardS x).1

/-- The row that lines 46–49 of `models.py` assemble on a well-shaped
input, written with the unchecked operations: the zero row of length
`row.length - 3` after the three in-order scatters of the truncated
per-band softmax distributions. -/
noncomputable def CalibrateExperts.assembledRow (m : CalibrateExperts) (row : List ℝ) :
    List ℝ :=
  scatterRow
    (scatterRow
      (scatterRow (List.replicate (row.length - 3) (0 : ℝ))
        m.manyshotClassMask
        (softmaxRow (List.zipWith (· + ·)
          (List.zipWith (· * ·) m.manyshotTemp (sliceRow row m.manyshotRange))
          m.manyshotBias)).dropLast)
      m.mediumshotClassMask
      (softmaxRow (List.zipWith (· + ·)
        (List.zipWith (· * ·) m.mediumshotTemp (sliceRow row m.mediumshotRange))
        m.mediumshotBias)).dropLast)
    m.fewshotClassMask
    (softmaxRow (List.zipWith (· + ·)
      (List.zipWith (· * ·) m.fewshotTemp (sliceRow row m.fewshotRange))
      m.fewshotBias)).dropLast

/-- Modelled from the spec's per-example algorithm, steps 2–3 (§4.2):
`scaled = temperature ⊙ raw_band + bias`, softmax over the band's
columns, then keep only the first `width − 1` columns (dropping the
reject column), where `w` is the band width. -/
noncomputable def specBand (temp bias raw : List ℝ) (w : Nat) : List ℝ :=
  (softmaxRow (List.zipWith (· + ·) (List.zipWith (· * ·) temp raw) bias)).take (w - 1)

/-- Modelled from the spec's per-example algorithm, step 4 (§4.2): a
zero-initialized vector of length `total real classes` (the sum of the
band widths minus the three reject columns) in which every position
receives the probability of the unique band whose class-index mask
contains it, at that mask position. -/
noncomputable def specAssembledRow (m : CalibrateExperts) (row : List ℝ) : List ℝ :=
  let w1 := m.manyshotRange.2 - m.manyshotRange.1
  let w2 := m.mediumshotRange.2 - m.mediumshotRange.1
  let w3 := m.fewshotRange.2 - m.fewshotRange.1
  let p1 := specBand m.manyshotTemp m.manyshotBias (sliceRow row m.manyshotRange) w1
  let p2 := specBand m.mediumshotTemp m.mediumshotBias (sliceRow row m.mediumshotRange) w2
  let p3 := specBand m.fewshotTemp m.fewshotBias (sliceRow row m.fewshotRange) w3
  (List.range (w1 + w2 + w3 - 3)).map (fun j =>
    if j ∈ m.manyshotClassMask then p1.getD (m.manyshotClassMask.indexOf j) 0
    else if j ∈ m.mediumshotClassMask then p2.getD (m.mediumshotClassMask.indexOf j) 0
    else if j ∈ m.fewshotClassMask then p3.getD (m.fewshotClassMask.indexOf j) 0
    else 0)

/-- Modelled from the spec's per-example algorithm, steps 5–6 (§4.2):
divide every entry of the assembled vector by the row sum, then take
the elementwise natural logarithm. -/
noncomputable def specCalibratedRow (m : CalibrateExperts) (row : List ℝ) : List ℝ :=
  ((specAssembledRow m row).map (fun a => a / (specAssembledRow m row).sum)).map Real.log

/-- The data-model invariant of §3 for a constructed `CalibrateExperts`
module: contiguous bands starting at 0, parameter rows of the band
widths, masks of length `width − 1` forming a partition of the output
index range `[0, total − 3)`. Both hardcoded configurations together
with partition masks satisfy it. -/
structure ValidModule (m : CalibrateExperts) : Prop where
  contig1 : m.manyshotRange.1 = 0
  contig2 : m.mediumshotRange.1 = m.manyshotRange.2
  contig3 : m.fewshotRange.1 = m.mediumshotRange.2
  total4 : 4 ≤ m.fewshotRange.2
  wpos1 : m.manyshotRange.1 < m.manyshotRange.2
  wpos2 : m.mediumshotRange.1 < m.mediumshotRange.2
  wpos3 : m.fewshotRange.1 < m.fewshotRange.2
  tlen1 : m.manyshotTemp.length = m.manyshotRange.2 - m.manyshotRange.1
  tlen2 : m.mediumshotTemp.length = m.mediumshotRange.2 - m.mediumshotRange.1
  tlen3 : m.fewshotTemp.length = m.fewshotRange.2 - m.fewshotRange.1
  blen1 : m.manyshotBias.length = m.manyshotTemp.length
  blen2 : m.mediumshotBias.length = m.mediumshotTemp.length
  blen3 : m.fewshotBias.length = m.fewshotTemp.length
  mlen1 : m.manyshotClassMask.length = m.manyshotTemp.length - 1
  mlen2 : m.mediumshotClassMask.length = m.mediumshotTemp.length - 1
  mlen3 : m.fewshotClassMask.length = m.fewshotTemp.length - 1
  nodup1 : m.manyshotClassMask.Nodup
  nodup2 : m.mediumshotClassMask.Nodup
  nodup3 : m.fewshotClassMask.Nodup
  disj12 : ∀ j ∈ m.manyshotClassMask, j ∉ m.mediumshotClassMask
  disj13 : ∀ j ∈ m.manyshotClassMask, j ∉ m.fewshotClassMask
  disj23 : ∀ j ∈ m.mediumshotClassMask, j ∉ m.fewshotClassMask
  inrange1 : ∀ j ∈ m.manyshotClassMask, j < m.fewshotRange.2 - 3
  inrange2 : ∀ j ∈ m.mediumshotClassMask, j < m.fewshotRange.2 - 3
  inrange3 : ∀ j ∈ m.fewshotClassMask, j < m.fewshotRange.2 - 3
  exhaustive : ∀ j, j < m.fewshotRange.2 - 3 →
    j ∈ m.manyshotClassMask ∨ j ∈ m.mediumshotClassMask ∨ j ∈ m.fewshotClassMask

/-- State of a `DotProduct_Classifier` (`models.py`, lines 55–62): the
linear layer is a weight matrix (one row per class) and a bias row. -/
structure DotProduct_Classifier where
  num_classes : Nat
  feat_dim : Nat
  fcWeight : List (List ℝ)
  fcBias : List ℝ
  use_logits : Bool

/-- Embedding of `nn.Linear` applied to one feature row: one dot
product plus bias per output class. -/
noncomputable def linearRow (W : List (List ℝ)) (b : List ℝ) (v : List ℝ) : List ℝ :=
  (W.zip b).map (fun p => (List.zipWith (· * ·) p.1 v).sum + p.2)

/-- Embedding of `F.log_softmax(v, dim=1)` on one row: the elementwise
log of the softmax. -/
noncomputable def logSoftmaxRow (v : List ℝ) : List ℝ :=
  (softmaxRow v).map Real.log

/-- `DotProduct_Classifier.forward` (`models.py`, lines 64–68):
`x = self.fc(x)`, and `x = F.log_softmax(x, dim=1)` exactly when
`use_logits` is not set. -/
noncomputable def DotProduct_Classifier.forward (c : DotProduct_Classifier)
    (x : List (List ℝ)) : List (List ℝ) :=
  let scores := x.map (linearRow c.fcWeight c.fcBias)
  if c.use_logits then scores else scores.map logSoftmaxRow

/-- Python truthiness of the `dropout` argument (`True if dropout else
False`, `models.py` line 165): `None` and `0` are falsy, every other
number is truthy. -/
def pyTruthy : Option ℚ → Bool
  | none => false
  | some p => decide (p ≠ 0)

/-- Configuration state of a `ResNet` (`models.py`, lines 150–172) that
the claims depend on: the `use_fc` flag and the computed `use_dropout`
flag.  The convolutional stages hold no bespoke control logic and are
abstracted in `ResNet.forwardTail`. -/
structure ResNet where
  use_fc : Bool
  use_dropout : Bool

/-- `ResNet.__init__` (`models.py`, lines 150–172) restricted to the
fields above: `use_dropout = True if dropout else False`. -/
def ResNet.init (use_fc : Bool) (dropout : Option ℚ) : ResNet :=
  { use_fc := use_fc, use_dropout := pyTruthy dropout }

/-- Embedding of `F.relu` on one row. -/
noncomputable def reluRow (v : List ℝ) : List ℝ :=
  v.map (fun a => max a 0)

/-- `ResNet.forward` (`models.py`, lines 199–222) with the standard
convolution/pool backbone (lines 200–214) abstracted as `backbone` and
the learned `fc_add` layer abstracted as `fcAdd`: after the backbone,
`x = F.relu(self.fc_add(x))` when `use_fc`, then `x = self.dropout(x)`
when `use_dropout` (the dropout layer itself abstracted as
`dropoutFn`). -/
noncomputable def ResNet.forwardTail (m : ResNet)
    (backbone fcAdd dropoutFn : List ℝ → List ℝ) (x : List ℝ) : List ℝ :=
  let f := backbone x
  let f2 := if m.use_fc then reluRow (fcAdd f) else f
  if m.use_dropout then dropoutFn f2 else f2

/-- `create_model_resnet10` (`models.py`, lines 224–227): builds the
ResNet passing `dropout=None` regardless of the `dropout` argument.
The `dataset` and `test` arguments are unused in the source and
omitted. -/
def create_model_resnet10 (use_fc : Bool) (dropout : Option ℚ) : ResNet :=
  ResNet.init use_fc none

/-- `create_model_resnet152` (`models.py`, lines 229–237): builds the
ResNet passing `dropout=None` regardless of the `dropout` argument; the
`caffe` branch only loads pretrained weights and does not touch the
dropout configuration. -/
def create_model_resnet152 (use_fc : Bool) (dropout : Option ℚ) (caffe : Bool) : ResNet :=
  ResNet.init use_fc none

/-- A concrete partition of the 365 real classes of the smaller
configuration into the three bands, with the sizes `__init__` expects
(132, 162 and 71 real classes). -/
def mask1 : List Nat := List.range 132

/-- Medium-shot part of the concrete partition. -/
def mask2 : List Nat := (List.range 162).map (fun j => j + 132)

/-- Few-shot part of the concrete partition. -/
def mask3 : List Nat := (List.range 71).map (fun j => j + 294)

/-- A `CalibrateExperts` module constructed with a non-imagenet dataset
identifier and the concrete partition masks. -/
noncomputable def calibSmall : CalibrateExperts :=
  CalibrateExperts.init "cifar" mask1 mask2 mask3

theorem scatterRow_nil {α : Type} (y : List α) (m : List Nat) :
    scatterRow y m [] = y := by
  simp [scatterRow]

theorem scatterRow_cons {α : Type} (y : List α) (i : Nat) (m : List Nat) (a : α)
    (v : List α) : scatterRow y (i :: m) (a :: v) = scatterRow (y.set i a) m v := rfl

theorem scatterRow_length {α : Type} (m : List Nat) (v : List α) (y : List α) :
    (scatterRow y m v).length = y.length := by
  induction m generalizing v y with
  | nil => rfl
  | cons i m ih =>
    cases v with
    | nil => rw [scatterRow_nil]
    | cons a v => rw [scatterRow_cons, ih, List.length_set]

theorem scatterRow_getElem?_of_not_mem {α : Type} (m : List Nat) :
    ∀ (y v : List α) (j : Nat), j ∉ m → (scatterRow y m v)[j]? = y[j]? := by
  induction m with
  | nil => intro y v j _; rfl
  | cons i m ih =>
    intro y v j hj
    cases v with
    | nil => rw [scatterRow_nil]
    | cons a v =>
      rw [scatterRow_cons, ih _ _ _ (fun h => hj (List.mem_cons_of_mem _ h))]
      exact List.getElem?_set_ne (fun h => hj (by rw [← h]; exact List.mem_cons_self i m))

theorem scatterRow_getElem?_of_mem {α : Type} (m : List Nat) :
    ∀ (y v : List α), m.Nodup → m.length = v.length → ∀ j, j ∈ m → j < y.length →
      (scatterRow y m v)[j]? = v[m.indexOf j]? := by
  induction m with
  | nil => intro y v _ _ j hm _; cases hm
  | cons i m ih =>
    intro y v hnd hlen j hm hj
    cases v with
    | nil => simp at hlen
    | cons a v =>
      rcases List.nodup_cons.mp hnd with ⟨hi, hnd'⟩
      by_cases hji : j = i
      · subst hji
        rw [scatterRow_cons, scatterRow_getElem?_of_not_mem _ _ _ _ hi,
          List.getElem?_set_eq_of_lt a hj, List.indexOf_cons_self]
        simp
      · have hm' : j ∈ m := by
          rcases List.mem_cons.mp hm with h | h
          · exact absurd h hji
          · exact h
        rw [scatterRow_cons,
          ih _ _ hnd' (by simpa using hlen) _ hm' (by rw [List.length_set]; exact hj),
          List.indexOf_cons_ne _ (fun h => hji h.symm)]
        simp

theorem bcast_eq_of_length {op : ℝ → ℝ → ℝ} {a b : List ℝ} (h : a.length = b.length) :
    bcast op a b = some (List.zipWith op a b) := by
  rw [bcast, if_pos h]

theorem checkedScatter_eq_of_valid {α : Type} [Inhabited α] (y v : List α)
    (m : List Nat) (h1 : ∀ i ∈ m, i < y.length) (h2 : m.length = v.length) :
    checkedScatter y m v = some (scatterRow y m v) := by
  rw [checkedScatter, if_pos ⟨h1, Or.inl h2⟩, if_pos h2]

theorem checkedScatter_some_inv {α : Type} [Inhabited α] {y v z : List α}
    {m : List Nat} (h : checkedScatter y m v = some z) :
    z.length = y.length ∧ ∀ i ∈ m, i < y.length := by
  by_cases hc : (∀ i ∈ m, i < y.length) ∧ (m.length = v.length ∨ v.length = 1)
  · rw [checkedScatter, if_pos hc] at h
    refine ⟨?_, hc.1⟩
    rw [← Option.some.inj h, scatterRow_length]
  · rw [checkedScatter, if_neg hc] at h
    cases h

theorem seqRows_map (f : List ℝ → Option (List ℝ)) (g : List ℝ → List ℝ)
    (x : List (List ℝ)) (h : ∀ row ∈ x, f row = some (g row)) :
    seqRows f x = some (x.map g) := by
  induction x with
  | nil => rfl
  | cons row rest ih =>
    have h1 : f row = some (g row) := h row (List.mem_cons_self _ _)
    have h2 : seqRows f rest = some (rest.map g) :=
      ih (fun r hr => h r (List.mem_cons_of_mem _ hr))
    simp [seqRows, h1, h2]

theorem seqRows_some_length (f : List ℝ → Option (List ℝ)) (x : List (List ℝ))
    (out : List (List ℝ)) (h : seqRows f x = some out) : out.length = x.length := by
  induction x generalizing out with
  | nil =>
    simp only [seqRows] at h
    rw [← Option.some.inj h]
  | cons row rest ih =>
    cases hf : f row with
    | none => simp [seqRows, hf] at h
    | some r =>
      cases hs : seqRows f rest with
      | none => simp [seqRows, hf, hs] at h
      | some rs =>
        simp only [seqRows, hf, hs] at h
        rw [← Option.some.inj h]
        simp [ih rs hs]

theorem seqRows_some_forall (f : List ℝ → Option (List ℝ)) (x : List (List ℝ))
    (out : List (List ℝ)) (h : seqRows f x = some out) :
    ∀ row ∈ x, ∃ r, f row = some r := by
  induction x generalizing out with
  | nil => intro row hrow; cases hrow
  | cons row rest ih =>
    cases hf : f row with
    | none => simp [seqRows, hf] at h
    | some r =>
      cases hs : seqRows f rest with
      | none => simp [seqRows, hf, hs] at h
      | some rs =>
        intro row' hrow'
        rcases List.mem_cons.mp hrow' with h' | h'
        · exact ⟨r, h' ▸ hf⟩
        · exact ih rs hs row' h'

theorem seqRows_some_mem (f : List ℝ → Option (List ℝ)) (x : List (List ℝ))
    (out : List (List ℝ)) (h : seqRows f x = some out) :
    ∀ r ∈ out, ∃ row ∈ x, f row = some r := by
  induction x generalizing out with
  | nil =>
    simp only [seqRows] at h
    rw [← Option.some.inj h]
    intro r hr
    cases hr
  | cons row rest ih =>
    cases hf : f row with
    | none => simp [seqRows, hf] at h
    | some r0 =>
      cases hs : seqRows f rest with
      | none => simp [seqRows, hf, hs] at h
      | some rs =>
        simp only [seqRows, hf, hs] at h
        rw [← Option.some.inj h]
        intro r hr
        rcases List.mem_cons.mp hr with h' | h'
        · exact ⟨row, List.mem_cons_self _ _, h' ▸ hf⟩
        · rcases ih rs hs r h' with ⟨row', hrow', hfr⟩
          exact ⟨row', List.mem_cons_of_mem _ hrow', hfr⟩

theorem softmaxRow_length (v : List ℝ) : (softmaxRow v).length = v.length := by
  simp [softmaxRow]

theorem softmaxRow_pos (v : List ℝ) (hv : v ≠ []) : ∀ a ∈ softmaxRow v, 0 < a := by
  intro a ha
  rw [softmaxRow, List.mem_map] at ha
  obtain ⟨b, _, rfl⟩ := ha
  have hsum : 0 < (v.map Real.exp).sum := by
    refine List.sum_pos _ ?_ (by simpa using hv)
    intro t ht
    rw [List.mem_map] at ht
    obtain ⟨u, _, rfl⟩ := ht
    exact Real.exp_pos u
  exact div_pos (Real.exp_pos b) hsum

theorem normLogRow_length (y : List ℝ) : (normLogRow y).length = y.length := by
  simp [normLogRow]

theorem bandResult_length (temp bias logits : List ℝ) (h1 : temp.length = logits.length)
    (h2 : bias.length = temp.length) :
    ((softmaxRow (List.zipWith (· + ·) (List.zipWith (· * ·) temp logits) bias)).dropLast).length
      = temp.length - 1 := by
  rw [List.length_dropLast, softmaxRow_length, List.length_zipWith, List.length_zipWith,
    ← h1, min_self, h2, min_self]

theorem bandStep_eq (temp bias logits : List ℝ) (h1 : temp.length = logits.length)
    (h2 : bias.length = temp.length) :
    bandStep temp bias logits =
      some ((softmaxRow (List.zipWith (· + ·) (List.zipWith (· * ·) temp logits) bias)).dropLast) := by
  have e : (List.zipWith (· * ·) temp logits).length = bias.length := by
    rw [List.length_zipWith, ← h1, min_self, h2]
  rw [bandStep, bcast_eq_of_length h1]
  simp only [Option.some_bind]
  rw [bcast_eq_of_length e]
  simp only [Option.some_bind]

theorem sliceRow_length (row : List ℝ) (r : Nat × Nat) :
    (sliceRow row r).length = min (r.2 - r.1) (row.length - r.1) := by
  simp [sliceRow]

theorem forwardRow_scatter (m : CalibrateExperts) (row : List ℝ) (p1 p2 p3 : List ℝ)
    (hb1 : bandStep m.manyshotTemp m.manyshotBias (sliceRow row m.manyshotRange) = some p1)
    (hb2 : bandStep m.mediumshotTemp m.mediumshotBias (sliceRow row m.mediumshotRange) = some p2)
    (hb3 : bandStep m.fewshotTemp m.fewshotBias (sliceRow row m.fewshotRange) = some p3)
    (hl1 : m.manyshotClassMask.length = p1.length)
    (hl2 : m.mediumshotClassMask.length = p2.length)
    (hl3 : m.fewshotClassMask.length = p3.length)
    (H4 : ∀ i ∈ m.manyshotClassMask, i < row.length - 3)
    (K4 : ∀ i ∈ m.mediumshotClassMask, i < row.length - 3)
    (F4 : ∀ i ∈ m.fewshotClassMask, i < row.length - 3) :
    m.forwardRow row =
      some (normLogRow (scatterRow (scatterRow (scatterRow
        (List.replicate (row.length - 3) (0 : ℝ))
        m.manyshotClassMask p1) m.mediumshotClassMask p2) m.fewshotClassMask p3)) := by
  rw [CalibrateExperts.forwardRow, hb1]
  simp only [Option.some_bind]
  rw [hb2]
  simp only [Option.some_bind]
  rw [hb3]
  simp only [Option.some_bind]
  rw [checkedScatter_eq_of_valid (List.replicate (row.length - 3) (0 : ℝ)) p1
    m.manyshotClassMask (by simpa using H4) hl1]
  simp only [Option.some_bind]
  rw [checkedScatter_eq_of_valid
    (scatterRow (List.replicate (row.length - 3) (0 : ℝ)) m.manyshotClassMask p1) p2
    m.mediumshotClassMask
    (by intro i hi; rw [scatterRow_length, List.length_replicate]; exact K4 i hi) hl2]
  simp only [Option.some_bind]
  rw [checkedScatter_eq_of_valid
    (scatterRow (scatterRow (List.replicate (row.length - 3) (0 : ℝ))
      m.manyshotClassMask p1) m.mediumshotClassMask p2) p3
    m.fewshotClassMask
    (by intro i hi; rw [scatterRow_length, scatterRow_length, List.length_replicate]
        exact F4 i hi) hl3]
  simp only [Option.some_bind]

theorem forwardRow_eq_some (m : CalibrateExperts) (row : List ℝ)
    (H1 : m.manyshotTemp.length = (sliceRow row m.manyshotRange).length)
    (H2 : m.manyshotBias.length = m.manyshotTemp.length)
    (H3 : m.manyshotClassMask.length = m.manyshotTemp.length - 1)
    (H4 : ∀ i ∈ m.manyshotClassMask, i < row.length - 3)
    (K1 : m.mediumshotTemp.length = (sliceRow row m.mediumshotRange).length)
    (K2 : m.mediumshotBias.length = m.mediumshotTemp.length)
    (K3 : m.mediumshotClassMask.length = m.mediumshotTemp.length - 1)
    (K4 : ∀ i ∈ m.mediumshotClassMask, i < row.length - 3)
    (F1 : m.fewshotTemp.length = (sliceRow row m.fewshotRange).length)
    (F2 : m.fewshotBias.length = m.fewshotTemp.length)
    (F3 : m.fewshotClassMask.length = m.fewshotTemp.length - 1)
    (F4 : ∀ i ∈ m.fewshotClassMask, i < row.length - 3) :
    m.forwardRow row = some (normLogRow (m.assembledRow row)) := by
  rw [CalibrateExperts.assembledRow]
  exact forwardRow_scatter m row _ _ _
    (bandStep_eq _ _ _ H1 H2) (bandStep_eq _ _ _ K1 K2) (bandStep_eq _ _ _ F1 F2)
    (by rw [bandResult_length _ _ _ H1 H2]; exact H3)
    (by rw [bandResult_length _ _ _ K1 K2]; exact K3)
    (by rw [bandResult_length _ _ _ F1 F2]; exact F3)
    H4 K4 F4

theorem forwardRow_some_inv (m : CalibrateExperts) (row : List ℝ) (r : List ℝ)
    (h : m.forwardRow row = some r) :
    r.length = row.length - 3 ∧
      (∀ i ∈ m.manyshotClassMask, i < row.length - 3) ∧
      (∀ i ∈ m.mediumshotClassMask, i < row.length - 3) ∧
      (∀ i ∈ m.fewshotClassMask, i < row.length - 3) := by
  rw [CalibrateExperts.forwardRow] at h
  obtain ⟨p1, hb1, h⟩ := Option.bind_eq_some.mp h
  obtain ⟨p2, hb2, h⟩ := Option.bind_eq_some.mp h
  obtain ⟨p3, hb3, h⟩ := Option.bind_eq_some.mp h
  obtain ⟨y1, hy1, h⟩ := Option.bind_eq_some.mp h
  obtain ⟨y2, hy2, h⟩ := Option.bind_eq_some.mp h
  obtain ⟨y3, hy3, h⟩ := Option.bind_eq_some.mp h
  obtain ⟨hly1, hc1⟩ := checkedScatter_some_inv hy1
  obtain ⟨hly2, hc2⟩ := checkedScatter_some_inv hy2
  obtain ⟨hly3, hc3⟩ := checkedScatter_some_inv hy3
  rw [List.length_replicate] at hly1 hc1
  rw [hly1] at hly2 hc2
  rw [hly2] at hly3 hc3
  refine ⟨?_, hc1, hc2, hc3⟩
  rw [← Option.some.inj h, normLogRow_length, hly3]

theorem forwardRow_eq_some_of_valid (m : CalibrateExperts) (hm : ValidModule m)
    (row : List ℝ) (hlen : m.fewshotRange.2 ≤ row.length) :
    m.forwardRow row = some (normLogRow (m.assembledRow row)) := by
  have c2 := hm.contig2
  have c3 := hm.contig3
  have w1 := hm.wpos1
  have w2 := hm.wpos2
  have w3 := hm.wpos3
  apply forwardRow_eq_some
  · rw [hm.tlen1, sliceRow_length]; omega
  · exact hm.blen1
  · exact hm.mlen1
  · intro i hi; have := hm.inrange1 i hi; omega
  · rw [hm.tlen2, sliceRow_length]; omega
  · exact hm.blen2
  · exact hm.mlen2
  · intro i hi; have := hm.inrange2 i hi; omega
  · rw [hm.tlen3, sliceRow_length]; omega
  · exact hm.blen3
  · exact hm.mlen3
  · intro i hi; have := hm.inrange3 i hi; omega

theorem forward_eq_some_of_valid (m : CalibrateExperts) (hm : ValidModule m)
    (x : List (List ℝ)) (hx : ∀ row ∈ x, m.fewshotRange.2 ≤ row.length) :
    m.forward x = some (x.map (fun row => normLogRow (m.assembledRow row))) := by
  rw [CalibrateExperts.forward, CalibrateExperts.forwardS]
  exact seqRows_map _ _ _ (fun row hrow => forwardRow_eq_some_of_valid m hm row (hx row hrow))

theorem bandZip_length (temp bias logits : List ℝ) (h1 : temp.length = logits.length)
    (h2 : bias.length = temp.length) :
    (List.zipWith (· + ·) (List.zipWith (· * ·) temp logits) bias).length
      = temp.length := by
  rw [List.length_zipWith, List.length_zipWith, ← h1, min_self, h2, min_self]

theorem getElem?_eq_some_getD (l : List ℝ) (i : Nat) (h : i < l.length) :
    l[i]? = some (l.getD i 0) := by
  rw [List.getElem?_eq_getElem h, List.getD_eq_getElem l 0 h]

theorem getElem?_range_map (f : Nat → ℝ) (n j : Nat) (h : j < n) :
    ((List.range n).map f)[j]? = some (f j) := by
  rw [List.getElem?_map, List.getElem?_eq_getElem (by simpa using h)]
  simp

theorem assembledRow_length (m : CalibrateExperts) (row : List ℝ) :
    (m.assembledRow row).length = row.length - 3 := by
  rw [CalibrateExperts.assembledRow, scatterRow_length, scatterRow_length, scatterRow_length,
    List.length_replicate]

theorem assembledRow_eq_spec (m : CalibrateExperts) (hm : ValidModule m) (row : List ℝ)
    (hrow : row.length = m.fewshotRange.2) :
    m.assembledRow row = specAssembledRow m row := by
  have c1 := hm.contig1
  have c2 := hm.contig2
  have c3 := hm.contig3
  have w1p := hm.wpos1
  have w2p := hm.wpos2
  have w3p := hm.wpos3
  have t4 := hm.total4
  have H1 : m.manyshotTemp.length = (sliceRow row m.manyshotRange).length := by
    rw [hm.tlen1, sliceRow_length]; omega
  have K1 : m.mediumshotTemp.length = (sliceRow row m.mediumshotRange).length := by
    rw [hm.tlen2, sliceRow_length]; omega
  have F1 : m.fewshotTemp.length = (sliceRow row m.fewshotRange).length := by
    rw [hm.tlen3, sliceRow_length]; omega
  have hP1 : (softmaxRow (List.zipWith (· + ·)
      (List.zipWith (· * ·) m.manyshotTemp (sliceRow row m.manyshotRange))
      m.manyshotBias)).dropLast
      = specBand m.manyshotTemp m.manyshotBias (sliceRow row m.manyshotRange)
        (m.manyshotRange.2 - m.manyshotRange.1) := by
    rw [specBand, List.dropLast_eq_take, softmaxRow_length,
      bandZip_length _ _ _ H1 hm.blen1, hm.tlen1]
  have hP2 : (softmaxRow (List.zipWith (· + ·)
      (List.zipWith (· * ·) m.mediumshotTemp (sliceRow row m.mediumshotRange))
      m.mediumshotBias)).dropLast
      = specBand m.mediumshotTemp m.mediumshotBias (sliceRow row m.mediumshotRange)
        (m.mediumshotRange.2 - m.mediumshotRange.1) := by
    rw [specBand, List.dropLast_eq_take, softmaxRow_length,
      bandZip_length _ _ _ K1 hm.blen2, hm.tlen2]
  have hP3 : (softmaxRow (List.zipWith (· + ·)
      (List.zipWith (· * ·) m.fewshotTemp (sliceRow row m.fewshotRange))
      m.fewshotBias)).dropLast
      = specBand m.fewshotTemp m.fewshotBias (sliceRow row m.fewshotRange)
        (m.fewshotRange.2 - m.fewshotRange.1) := by
    rw [specBand, List.dropLast_eq_take, softmaxRow_length,
      bandZip_length _ _ _ F1 hm.blen3, hm.tlen3]
  simp only [CalibrateExperts.assembledRow, specAssembledRow]
  rw [hP1, hP2, hP3]
  set p1 := specBand m.manyshotTemp m.manyshotBias (sliceRow row m.manyshotRange)
    (m.manyshotRange.2 - m.manyshotRange.1) with hp1
  set p2 := specBand m.mediumshotTemp m.mediumshotBias (sliceRow row m.mediumshotRange)
    (m.mediumshotRange.2 - m.mediumshotRange.1) with hp2
  set p3 := specBand m.fewshotTemp m.fewshotBias (sliceRow row m.fewshotRange)
    (m.fewshotRange.2 - m.fewshotRange.1) with hp3
  have hp1l : p1.length = m.manyshotRange.2 - m.manyshotRange.1 - 1 := by
    rw [← hP1, bandResult_length _ _ _ H1 hm.blen1, hm.tlen1]
  have hp2l : p2.length = m.mediumshotRange.2 - m.mediumshotRange.1 - 1 := by
    rw [← hP2, bandResult_length _ _ _ K1 hm.blen2, hm.tlen2]
  have hp3l : p3.length = m.fewshotRange.2 - m.fewshotRange.1 - 1 := by
    rw [← hP3, bandResult_length _ _ _ F1 hm.blen3, hm.tlen3]
  have hn : m.manyshotRange.2 - m.manyshotRange.1 + (m.mediumshotRange.2 - m.mediumshotRange.1)
      + (m.fewshotRange.2 - m.fewshotRange.1) - 3 = row.length - 3 := by omega
  rw [hn]
  apply List.ext_getElem?
  intro j
  by_cases hj : j < row.length - 3
  · have hjtot : j < m.fewshotRange.2 - 3 := by omega
    rw [getElem?_range_map _ _ _ hj]
    rcases hm.exhaustive j hjtot with h1 | h2 | h3
    · have hn2 : j ∉ m.mediumshotClassMask := hm.disj12 j h1
      have hn3 : j ∉ m.fewshotClassMask := hm.disj13 j h1
      rw [scatterRow_getElem?_of_not_mem _ _ _ _ hn3,
        scatterRow_getElem?_of_not_mem _ _ _ _ hn2,
        scatterRow_getElem?_of_mem _ _ _ hm.nodup1
          (by rw [hm.mlen1, hm.tlen1, hp1l]) _ h1 (by rw [List.length_replicate]; exact hj),
        if_pos h1]
      refine getElem?_eq_some_getD _ _ ?_
      have hidx := List.indexOf_lt_length.mpr h1
      rw [hm.mlen1, hm.tlen1] at hidx
      rw [hp1l]
      exact hidx
    · have hn1 : j ∉ m.manyshotClassMask := fun h => hm.disj12 j h h2
      have hn3 : j ∉ m.fewshotClassMask := hm.disj23 j h2
      rw [scatterRow_getElem?_of_not_mem _ _ _ _ hn3,
        scatterRow_getElem?_of_mem _ _ _ hm.nodup2
          (by rw [hm.mlen2, hm.tlen2, hp2l]) _ h2
          (by rw [scatterRow_length, List.length_replicate]; exact hj),
        if_neg hn1, if_pos h2]
      refine getElem?_eq_some_getD _ _ ?_
      have hidx := List.indexOf_lt_length.mpr h2
      rw [hm.mlen2, hm.tlen2] at hidx
      rw [hp2l]
      exact hidx
    · have hn1 : j ∉ m.manyshotClassMask := fun h => hm.disj13 j h h3
      have hn2 : j ∉ m.mediumshotClassMask := fun h => hm.disj23 j h h3
      rw [scatterRow_getElem?_of_mem _ _ _ hm.nodup3
          (by rw [hm.mlen3, hm.tlen3, hp3l]) _ h3
          (by rw [scatterRow_length, scatterRow_length, List.length_replicate]; exact hj),
        if_neg hn1, if_neg hn2, if_pos h3]
      refine getElem?_eq_some_getD _ _ ?_
      have hidx := List.indexOf_lt_length.mpr h3
      rw [hm.mlen3, hm.tlen3] at hidx
      rw [hp3l]
      exact hidx
  · rw [List.getElem?_eq_none (by
        rw [scatterRow_length, scatterRow_length, scatterRow_length, List.length_replicate]
        omega),
      List.getElem?_eq_none (by rw [List.length_map, List.length_range]; omega)]

theorem sum_map_mul_const (l : List ℝ) (c : ℝ) :
    (l.map (fun a => a * c)).sum = l.sum * c := by
  induction l with
  | nil => simp
  | cons a l ih => simp [ih, add_mul]

theorem assembledRow_pos (m : CalibrateExperts) (hm : ValidModule m) (row : List ℝ)
    (hrow : row.length = m.fewshotRange.2) : ∀ a ∈ m.assembledRow row, 0 < a := by
  have c1 := hm.contig1
  have c2 := hm.contig2
  have c3 := hm.contig3
  have w1p := hm.wpos1
  have w2p := hm.wpos2
  have w3p := hm.wpos3
  have t4 := hm.total4
  have H1 : m.manyshotTemp.length = (sliceRow row m.manyshotRange).length := by
    rw [hm.tlen1, sliceRow_length]; omega
  have K1 : m.mediumshotTemp.length = (sliceRow row m.mediumshotRange).length := by
    rw [hm.tlen2, sliceRow_length]; omega
  have F1 : m.fewshotTemp.length = (sliceRow row m.fewshotRange).length := by
    rw [hm.tlen3, sliceRow_length]; omega
  have hZ1ne : List.zipWith (· + ·)
      (List.zipWith (· * ·) m.manyshotTemp (sliceRow row m.manyshotRange))
      m.manyshotBias ≠ [] := by
    intro hnil
    have hl := bandZip_length _ _ _ H1 hm.blen1
    rw [hnil, hm.tlen1] at hl
    simp at hl
    omega
  have hZ2ne : List.zipWith (· + ·)
      (List.zipWith (· * ·) m.mediumshotTemp (sliceRow row m.mediumshotRange))
      m.mediumshotBias ≠ [] := by
    intro hnil
    have hl := bandZip_length _ _ _ K1 hm.blen2
    rw [hnil, hm.tlen2] at hl
    simp at hl
    omega
  have hZ3ne : List.zipWith (· + ·)
      (List.zipWith (· * ·) m.fewshotTemp (sliceRow row m.fewshotRange))
      m.fewshotBias ≠ [] := by
    intro hnil
    have hl := bandZip_length _ _ _ F1 hm.blen3
    rw [hnil, hm.tlen3] at hl
    simp at hl
    omega
  intro a ha
  obtain ⟨j, hj⟩ := List.mem_iff_getElem?.mp ha
  have hjlt : j < (m.assembledRow row).length := by
    by_contra hcon
    rw [List.getElem?_eq_none (by omega)] at hj
    cases hj
  rw [assembledRow_length] at hjlt
  have hjtot : j < m.fewshotRange.2 - 3 := by omega
  simp only [CalibrateExperts.assembledRow] at hj
  rcases hm.exhaustive j hjtot with h1 | h2 | h3
  · have hn2 : j ∉ m.mediumshotClassMask := hm.disj12 j h1
    have hn3 : j ∉ m.fewshotClassMask := hm.disj13 j h1
    rw [scatterRow_getElem?_of_not_mem _ _ _ _ hn3,
      scatterRow_getElem?_of_not_mem _ _ _ _ hn2,
      scatterRow_getElem?_of_mem _ _ _ hm.nodup1
        (by rw [hm.mlen1, bandResult_length _ _ _ H1 hm.blen1]) _ h1
        (by rw [List.length_replicate]; exact hjlt)] at hj
    have hmem : a ∈ (softmaxRow (List.zipWith (· + ·)
        (List.zipWith (· * ·) m.manyshotTemp (sliceRow row m.manyshotRange))
        m.manyshotBias)).dropLast := List.mem_iff_getElem?.mpr ⟨_, hj⟩
    exact softmaxRow_pos _ hZ1ne a (List.dropLast_subset _ hmem)
  · have hn1 : j ∉ m.manyshotClassMask := fun h => hm.disj12 j h h2
    have hn3 : j ∉ m.fewshotClassMask := hm.disj23 j h2
    rw [scatterRow_getElem?_of_not_mem _ _ _ _ hn3,
      scatterRow_getElem?_of_mem _ _ _ hm.nodup2
        (by rw [hm.mlen2, bandResult_length _ _ _ K1 hm.blen2]) _ h2
        (by rw [scatterRow_length, List.length_replicate]; exact hjlt)] at hj
    have hmem : a ∈ (softmaxRow (List.zipWith (· + ·)
        (List.zipWith (· * ·) m.mediumshotTemp (sliceRow row m.mediumshotRange))
        m.mediumshotBias)).dropLast := List.mem_iff_getElem?.mpr ⟨_, hj⟩
    exact softmaxRow_pos _ hZ2ne a (List.dropLast_subset _ hmem)
  · have hn1 : j ∉ m.manyshotClassMask := fun h => hm.disj13 j h h3
    have hn2 : j ∉ m.mediumshotClassMask := fun h => hm.disj23 j h h3
    rw [scatterRow_getElem?_of_mem _ _ _ hm.nodup3
        (by rw [hm.mlen3, bandResult_length _ _ _ F1 hm.blen3]) _ h3
        (by rw [scatterRow_length, scatterRow_length, List.length_replicate];
            exact hjlt)] at hj
    have hmem : a ∈ (softmaxRow (List.zipWith (· + ·)
        (List.zipWith (· * ·) m.fewshotTemp (sliceRow row m.fewshotRange))
        m.fewshotBias)).dropLast := List.mem_iff_getElem?.mpr ⟨_, hj⟩
    exact softmaxRow_pos _ hZ3ne a (List.dropLast_subset _ hmem)

theorem assembledRow_sum_pos (m : CalibrateExperts) (hm : ValidModule m) (row : List ℝ)
    (hrow : row.length = m.fewshotRange.2) : 0 < (m.assembledRow row).sum := by
  refine List.sum_pos _ (assembledRow_pos m hm row hrow) ?_
  have hlen := assembledRow_length m row
  have t4 := hm.total4
  intro hnil
  rw [hnil] at hlen
  simp at hlen
  omega

theorem normLogRow_exp_sum (y : List ℝ) (hpos : ∀ a ∈ y, 0 < a) (hne : y ≠ []) :
    ((normLogRow y).map Real.exp).sum = 1 := by
  have hsum : 0 < y.sum := List.sum_pos y hpos hne
  have h1 : (normLogRow y).map Real.exp = y.map (fun a => a / y.sum) := by
    rw [normLogRow, List.map_map]
    have hcong : ∀ b ∈ y.map (fun a => a / y.sum), (Real.exp ∘ Real.log) b = id b := by
      intro b hb
      rw [List.mem_map] at hb
      obtain ⟨a, ha, rfl⟩ := hb
      exact Real.exp_log (div_pos (hpos a ha) hsum)
    rw [List.map_congr_left hcong, List.map_id]
  have h2 : y.map (fun a => a / y.sum) = y.map (fun a => a * (y.sum)⁻¹) := by
    apply List.map_congr_left
    intro a _
    rw [div_eq_mul_inv]
  rw [h1, h2, sum_map_mul_const, mul_inv_cancel₀ (ne_of_gt hsum)]


theorem mem_mask1 (j : Nat) : j ∈ mask1 ↔ j < 132 := by
  simp [mask1]

theorem mem_mask2 (j : Nat) : j ∈ mask2 ↔ 132 ≤ j ∧ j < 294 := by
  simp only [mask2, List.mem_map, List.mem_range]
  constructor
  · rintro ⟨k, hk, rfl⟩; omega
  · intro h; exact ⟨j - 132, by omega, by omega⟩

theorem mem_mask3 (j : Nat) : j ∈ mask3 ↔ 294 ≤ j ∧ j < 365 := by
  simp only [mask3, List.mem_map, List.mem_range]
  constructor
  · rintro ⟨k, hk, rfl⟩; omega
  · intro h; exact ⟨j - 294, by omega, by omega⟩

theorem calibSmall_manyshotRange : calibSmall.manyshotRange = (0, 133) := rfl

theorem calibSmall_mediumshotRange : calibSmall.mediumshotRange = (133, 296) := rfl

theorem calibSmall_fewshotRange : calibSmall.fewshotRange = (296, 368) := rfl

theorem calibSmall_manyshotTemp : calibSmall.manyshotTemp = List.replicate 133 1 := rfl

theorem calibSmall_mediumshotTemp : calibSmall.mediumshotTemp = List.replicate 163 1 := rfl

theorem calibSmall_fewshotTemp : calibSmall.fewshotTemp = List.replicate 72 1 := rfl

theorem calibSmall_manyshotBias : calibSmall.manyshotBias = List.replicate 133 1 := rfl

theorem calibSmall_mediumshotBias : calibSmall.mediumshotBias = List.replicate 163 1 := rfl

theorem calibSmall_fewshotBias : calibSmall.fewshotBias = List.replicate 72 1 := rfl

theorem calibSmall_mask1 : calibSmall.manyshotClassMask = mask1 := rfl

theorem calibSmall_mask2 : calibSmall.mediumshotClassMask = mask2 := rfl

theorem calibSmall_mask3 : calibSmall.fewshotClassMask = mask3 := rfl

theorem validCalibSmall : ValidModule calibSmall := by
  refine ⟨?_, ?_, ?_, ?_, ?_, ?_, ?_, ?_, ?_, ?_, ?_, ?_, ?_, ?_, ?_, ?_, ?_, ?_, ?_,
    ?_, ?_, ?_, ?_, ?_, ?_, ?_⟩
  · rw [calibSmall_manyshotRange]
  · rw [calibSmall_mediumshotRange, calibSmall_manyshotRange]
  · rw [calibSmall_fewshotRange, calibSmall_mediumshotRange]
  · rw [calibSmall_fewshotRange]; omega
  · rw [calibSmall_manyshotRange]; omega
  · rw [calibSmall_mediumshotRange]; omega
  · rw [calibSmall_fewshotRange]; omega
  · rw [calibSmall_manyshotTemp, calibSmall_manyshotRange]; simp
  · rw [calibSmall_mediumshotTemp, calibSmall_mediumshotRange]; simp
  · rw [calibSmall_fewshotTemp, calibSmall_fewshotRange]; simp
  · rw [calibSmall_manyshotBias, calibSmall_manyshotTemp]
  · rw [calibSmall_mediumshotBias, calibSmall_mediumshotTemp]
  · rw [calibSmall_fewshotBias, calibSmall_fewshotTemp]
  · rw [calibSmall_mask1, calibSmall_manyshotTemp]; simp [mask1]
  · rw [calibSmall_mask2, calibSmall_mediumshotTemp]; simp [mask2]
  · rw [calibSmall_mask3, calibSmall_fewshotTemp]; simp [mask3]
  · rw [calibSmall_mask1]; exact List.nodup_range 132
  · rw [calibSmall_mask2]
    exact List.Nodup.map (fun a b h => by omega) (List.nodup_range 162)
  · rw [calibSmall_mask3]
    exact List.Nodup.map (fun a b h => by omega) (List.nodup_range 71)
  · intro j hj hj2
    rw [calibSmall_mask1, mem_mask1] at hj
    rw [calibSmall_mask2, mem_mask2] at hj2
    omega
  · intro j hj hj2
    rw [calibSmall_mask1, mem_mask1] at hj
    rw [calibSmall_mask3, mem_mask3] at hj2
    omega
  · intro j hj hj2
    rw [calibSmall_mask2, mem_mask2] at hj
    rw [calibSmall_mask3, mem_mask3] at hj2
    omega
  · intro j hj
    rw [calibSmall_mask1, mem_mask1] at hj
    rw [calibSmall_fewshotRange]
    omega
  · intro j hj
    rw [calibSmall_mask2, mem_mask2] at hj
    rw [calibSmall_fewshotRange]
    omega
  · intro j hj
    rw [calibSmall_mask3, mem_mask3] at hj
    rw [calibSmall_fewshotRange]
    omega
  · intro j hj
    rw [calibSmall_fewshotRange] at hj
    rw [calibSmall_mask1, calibSmall_mask2, calibSmall_mask3, mem_mask1, mem_mask2,
      mem_mask3]
    omega

theorem singleton_replicate_len (n : Nat) :
    ∀ row ∈ [List.replicate n (0 : ℝ)], row.length = n := by
  intro row hrow
  rw [List.mem_singleton] at hrow
  subst hrow
  simp

/-- C1: for every batch whose rows have the configured total raw length
(`fewshotRange.2`) and any parameter/mask state satisfying the §3 data
model invariant (`ValidModule`, which fixes only the shapes and the
mask partition, not the parameter values), the calibration forward pass
returns, for each row, the elementwise natural logarithm of the jointly
renormalized vector built exactly as the spec describes: per-band
softmax of `temperature ⊙ raw + bias`, reject column dropped, the three
truncated distributions scattered through the class-index masks into a
zero-initialized vector, and every entry divided by the row sum
(`specCalibratedRow`). -/
theorem calibrate_forward_matches_spec (m : CalibrateExperts) (x : List (List ℝ))
    (hm : ValidModule m) (hx : ∀ row ∈ x, row.length = m.fewshotRange.2) :
    m.forward x = some (x.map (specCalibratedRow m)) := by
  rw [forward_eq_some_of_valid m hm x (fun row hrow => le_of_eq (hx row hrow).symm)]
  congr 1
  apply List.map_congr_left
  intro row hrow
  rw [specCalibratedRow, ← assembledRow_eq_spec m hm row (hx row hrow), normLogRow]

/-- Witness for C1 at the smaller configuration, partition masks, the
constructed all-ones parameters and the all-zero batch of one 368-column
row. -/
theorem calibrate_forward_matches_spec_witness :
    calibSmall.forward [List.replicate 368 (0 : ℝ)]
      = some ([List.replicate 368 (0 : ℝ)].map (specCalibratedRow calibSmall)) :=
  calibrate_forward_matches_spec calibSmall [List.replicate 368 (0 : ℝ)] validCalibSmall
    (by
      intro row hrow
      rw [singleton_replicate_len 368 row hrow, calibSmall_fewshotRange])

/-- C2: on every valid batch (correct row length, §3 mask partition
invariant) whose assembled per-row sums are nonzero, every row of the
forward output sums to exactly 1 after exponentiating (the renormalized
vector before the log step). -/
theorem calibrate_output_rows_sum_to_one (m : CalibrateExperts) (x out : List (List ℝ))
    (hm : ValidModule m) (hx : ∀ row ∈ x, row.length = m.fewshotRange.2)
    (hsum : ∀ row ∈ x, (m.assembledRow row).sum ≠ 0)
    (hout : m.forward x = some out) :
    ∀ r ∈ out, (r.map Real.exp).sum = 1 := by
  intro r hr
  rw [CalibrateExperts.forward, CalibrateExperts.forwardS] at hout
  obtain ⟨row, hrow, hfr⟩ := seqRows_some_mem _ _ _ hout r hr
  have h2 := forwardRow_eq_some_of_valid m hm row (le_of_eq (hx row hrow).symm)
  have hreq : r = normLogRow (m.assembledRow row) := Option.some.inj (hfr.symm.trans h2)
  subst hreq
  have hne : m.assembledRow row ≠ [] := by
    intro hnil
    have hl := assembledRow_length m row
    rw [hnil] at hl
    simp only [List.length_nil] at hl
    have t4 := hm.total4
    have hrl := hx row hrow
    omega
  exact normLogRow_exp_sum _ (assembledRow_pos m hm row (hx row hrow)) hne

/-- Witness for C2 at the smaller configuration and the all-zero
368-column batch. -/
theorem calibrate_output_rows_sum_to_one_witness :
    ∃ out, calibSmall.forward [List.replicate 368 (0 : ℝ)] = some out ∧
      ∀ r ∈ out, (r.map Real.exp).sum = 1 := by
  have hx : ∀ row ∈ [List.replicate 368 (0 : ℝ)], row.length = calibSmall.fewshotRange.2 := by
    intro row hrow
    rw [singleton_replicate_len 368 row hrow, calibSmall_fewshotRange]
  have hout := forward_eq_some_of_valid calibSmall validCalibSmall
    [List.replicate 368 (0 : ℝ)] (fun row hrow => le_of_eq (hx row hrow).symm)
  exact ⟨_, hout, calibrate_output_rows_sum_to_one calibSmall _ _ validCalibSmall hx
    (fun row hrow =>
      ne_of_gt (assembledRow_sum_pos calibSmall validCalibSmall row (hx row hrow)))
    hout⟩

/-- C3 counterexample: a batch with 369 columns (one more than the
smaller configuration's total raw length 368) is *accepted* by the
forward pass — it returns a result — and the output row has length
369 − 3 = 366, not total − 3 = 365.  So the output length of accepted
batches is not always total − 3. -/
theorem calibrate_output_length_counterexample :
    calibSmall.forward [List.replicate 369 (0 : ℝ)]
        = some [normLogRow (calibSmall.assembledRow (List.replicate 369 (0 : ℝ)))] ∧
      (normLogRow (calibSmall.assembledRow (List.replicate 369 (0 : ℝ)))).length ≠ 365 := by
  constructor
  · have h := forward_eq_some_of_valid calibSmall validCalibSmall
      [List.replicate 369 (0 : ℝ)]
      (by
        intro row hrow
        rw [singleton_replicate_len 369 row hrow, calibSmall_fewshotRange]
        decide)
    rw [List.map_cons, List.map_nil] at h
    exact h
  · rw [normLogRow_length, assembledRow_length, List.length_replicate]
    omega

/-- C3 (amended): for every batch of uniform column count `c` accepted
by the forward pass, the output has one row per input row and every
output row has length `c − 3`; this equals total − 3 exactly when `c`
is the configured total raw length. -/
theorem calibrate_output_shape (m : CalibrateExperts) (x out : List (List ℝ)) (c : Nat)
    (hx : ∀ row ∈ x, row.length = c) (hout : m.forward x = some out) :
    out.length = x.length ∧ ∀ r ∈ out, r.length = c - 3 := by
  rw [CalibrateExperts.forward, CalibrateExperts.forwardS] at hout
  refine ⟨seqRows_some_length _ _ _ hout, ?_⟩
  intro r hr
  obtain ⟨row, hrow, hfr⟩ := seqRows_some_mem _ _ _ hout r hr
  obtain ⟨hlen, -, -, -⟩ := forwardRow_some_inv m row r hfr
  rw [hlen, hx row hrow]

/-- Witness for the amended C3 at the 368-column batch. -/
theorem calibrate_output_shape_witness :
    ∃ out, calibSmall.forward [List.replicate 368 (0 : ℝ)] = some out ∧
      out.length = 1 ∧ ∀ r ∈ out, r.length = 365 := by
  have hout := forward_eq_some_of_valid calibSmall validCalibSmall
    [List.replicate 368 (0 : ℝ)]
    (by
      intro row hrow
      rw [singleton_replicate_len 368 row hrow, calibSmall_fewshotRange])
  obtain ⟨h1, h2⟩ := calibrate_output_shape calibSmall _ _ 368
    (singleton_replicate_len 368) hout
  exact ⟨_, hout, h1.trans rfl, h2⟩

/-- C4 counterexample: construction with the unsupported dataset
identifier "places" does not fail — it succeeds and silently selects
the smaller hardcoded range configuration. -/
theorem init_unsupported_dataset_counterexample :
    (CalibrateExperts.init "places" [] [] []).manyshotRange = (0, 133) ∧
      (CalibrateExperts.init "places" [] [] []).mediumshotRange = (133, 296) ∧
      (CalibrateExperts.init "places" [] [] []).fewshotRange = (296, 368) :=
  ⟨rfl, rfl, rfl⟩

/-- C4 (amended): construction never fails; every dataset identifier
other than "imagenet" silently takes the `else` branch and uses the
smaller configuration `(0,133),(133,296),(296,368)`. -/
theorem init_defaults_silently (s : String) (m1 m2 m3 : List Nat) (h : s ≠ "imagenet") :
    (CalibrateExperts.init s m1 m2 m3).manyshotRange = (0, 133) ∧
      (CalibrateExperts.init s m1 m2 m3).mediumshotRange = (133, 296) ∧
      (CalibrateExperts.init s m1 m2 m3).fewshotRange = (296, 368) := by
  refine ⟨?_, ?_, ?_⟩ <;> simp [CalibrateExperts.init, h]

/-- Witness for the amended C4 at a concrete unsupported identifier. -/
theorem init_defaults_silently_witness :
    (CalibrateExperts.init "cifar100" [] [] []).manyshotRange = (0, 133) ∧
      (CalibrateExperts.init "cifar100" [] [] []).mediumshotRange = (133, 296) ∧
      (CalibrateExperts.init "cifar100" [] [] []).fewshotRange = (296, 368) :=
  init_defaults_silently "cifar100" [] [] [] (by decide)

/-- C6 counterexample: a batch whose rows have 369 columns — different
from the configured total raw length 368 — does *not* make the forward
pass fail: every slice still yields a full-width band (Python slicing
clamps), the masks stay in bounds of the wider zero row, and a result
is returned (a degraded one: the extra columns keep probability 0). -/
theorem forward_accepts_long_input :
    calibSmall.forward [List.replicate 369 (0 : ℝ)]
      = some [normLogRow (calibSmall.assembledRow (List.replicate 369 (0 : ℝ)))] := by
  have h := forward_eq_some_of_valid calibSmall validCalibSmall
    [List.replicate 369 (0 : ℝ)]
    (by
      intro row hrow
      rw [singleton_replicate_len 369 row hrow, calibSmall_fewshotRange]
      decide)
  rw [List.map_cons, List.map_nil] at h
  exact h

/-- C6 (amended): the fail-fast property holds for *under-length*
batches: on any nonempty batch of uniform column count `c` strictly
below the configured total raw length, with exhaustive class masks
(§3 invariant), the forward pass returns no result — the scatter
assignments' index bounds cannot all hold in the narrower output row.
Over-length batches, by contrast, are silently accepted
(`forward_accepts_long_input`). -/
theorem forward_fails_on_short_input (m : CalibrateExperts) (x : List (List ℝ)) (c : Nat)
    (hne : x ≠ [])
    (hx : ∀ row ∈ x, row.length = c)
    (hc : c < m.fewshotRange.2)
    (h4 : 4 ≤ m.fewshotRange.2)
    (hexh : ∀ j, j < m.fewshotRange.2 - 3 →
      j ∈ m.manyshotClassMask ∨ j ∈ m.mediumshotClassMask ∨ j ∈ m.fewshotClassMask) :
    m.forward x = none := by
  cases hfw : m.forward x with
  | none => rfl
  | some out =>
    exfalso
    rw [CalibrateExperts.forward, CalibrateExperts.forwardS] at hfw
    obtain ⟨row, hrow⟩ : ∃ row, row ∈ x := by
      cases x with
      | nil => exact absurd rfl hne
      | cons r xs => exact ⟨r, List.mem_cons_self _ _⟩
    obtain ⟨r, hr⟩ := seqRows_some_forall _ _ _ hfw row hrow
    obtain ⟨hlen, hc1, hc2, hc3⟩ := forwardRow_some_inv m row r hr
    have hrowlen := hx row hrow
    rcases hexh (m.fewshotRange.2 - 4) (by omega) with h | h | h
    · have := hc1 _ h; omega
    · have := hc2 _ h; omega
    · have := hc3 _ h; omega

/-- Witness for the amended C6: a 300-column batch at the smaller
configuration fails. -/
theorem forward_fails_on_short_input_witness :
    calibSmall.forward [List.replicate 300 (0 : ℝ)] = none := by
  apply forward_fails_on_short_input calibSmall [List.replicate 300 (0 : ℝ)] 300
  · intro hnil
    cases hnil
  · exact singleton_replicate_len 300
  · rw [calibSmall_fewshotRange]
    decide
  · rw [calibSmall_fewshotRange]
    decide
  · intro j hj
    rw [calibSmall_fewshotRange] at hj
    have hj' : j < 365 := hj
    rw [calibSmall_mask1, calibSmall_mask2, calibSmall_mask3, mem_mask1, mem_mask2,
      mem_mask3]
    omega

/-- C7: in both hardcoded configurations the three band ranges are
contiguous (each band's end is the next band's start), start at 0, and
their widths sum to the total raw-vector length — 1003 for the imagenet
configuration and 368 for the smaller one. -/
theorem band_ranges_partition :
    ((CalibrateExperts.init "imagenet" [] [] []).manyshotRange.1 = 0 ∧
      (CalibrateExperts.init "imagenet" [] [] []).mediumshotRange.1 =
        (CalibrateExperts.init "imagenet" [] [] []).manyshotRange.2 ∧
      (CalibrateExperts.init "imagenet" [] [] []).fewshotRange.1 =
        (CalibrateExperts.init "imagenet" [] [] []).mediumshotRange.2 ∧
      (CalibrateExperts.init "imagenet" [] [] []).manyshotRange.2 -
          (CalibrateExperts.init "imagenet" [] [] []).manyshotRange.1 +
        ((CalibrateExperts.init "imagenet" [] [] []).mediumshotRange.2 -
          (CalibrateExperts.init "imagenet" [] [] []).mediumshotRange.1) +
        ((CalibrateExperts.init "imagenet" [] [] []).fewshotRange.2 -
          (CalibrateExperts.init "imagenet" [] [] []).fewshotRange.1) = 1003 ∧
      (CalibrateExperts.init "imagenet" [] [] []).fewshotRange.2 = 1003) ∧
    (calibSmall.manyshotRange.1 = 0 ∧
      calibSmall.mediumshotRange.1 = calibSmall.manyshotRange.2 ∧
      calibSmall.fewshotRange.1 = calibSmall.mediumshotRange.2 ∧
      calibSmall.manyshotRange.2 - calibSmall.manyshotRange.1 +
        (calibSmall.mediumshotRange.2 - calibSmall.mediumshotRange.1) +
        (calibSmall.fewshotRange.2 - calibSmall.fewshotRange.1) = 368 ∧
      calibSmall.fewshotRange.2 = 368) := by
  decide

/-- C8: the classifier head forward pass returns the raw linear scores
`fc(x)` when `use_logits` is set and `log_softmax(fc(x))` along the
class dimension when it is not; no other transformation is applied in
either case. -/
theorem classifier_forward_cases (nc fd : Nat) (W : List (List ℝ)) (b : List ℝ)
    (x : List (List ℝ)) :
    DotProduct_Classifier.forward ⟨nc, fd, W, b, true⟩ x = x.map (linearRow W b) ∧
      DotProduct_Classifier.forward ⟨nc, fd, W, b, false⟩ x
        = (x.map (linearRow W b)).map logSoftmaxRow := by
  constructor <;> rfl

/-- C9: the forward pass does not mutate the module state: the state
returned by the state-passing forward (`forwardS`) — which carries the
six learned parameter rows, the three class-index masks and the three
band ranges — is the input state, for every module and batch. -/
theorem calibrate_forward_preserves_state (m : CalibrateExperts) (x : List (List ℝ)) :
    (m.forwardS x).2 = m := rfl

/-- C10: both factory functions pass `dropout=None` to the ResNet
constructor regardless of their `dropout` argument, so the constructed
model has `use_dropout = false` and its forward tail never applies the
dropout function, for every dropout argument value. -/
theorem resnet_factories_ignore_dropout (uf : Bool) (d : Option ℚ) (caffe : Bool)
    (backbone fcAdd dropoutFn : List ℝ → List ℝ) (x : List ℝ) :
    (create_model_resnet10 uf d).use_dropout = false ∧
      (create_model_resnet152 uf d caffe).use_dropout = false ∧
      ResNet.forwardTail (create_model_resnet10 uf d) backbone fcAdd dropoutFn x
        = (if uf then reluRow (fcAdd (backbone x)) else backbone x) ∧
      ResNet.forwardTail (create_model_resnet152 uf d caffe) backbone fcAdd dropoutFn x
        = (if uf then reluRow (fcAdd (backbone x)) else backbone x) := by
  refine ⟨rfl, rfl, ?_, ?_⟩ <;>
    simp [ResNet.forwardTail, create_model_resnet10, create_model_resnet152, ResNet.init,
      pyTruthy]
